import Mathlib

/-!
# Zigbee on/off switch and light: button handling

A shallow embedding of the two sketches of the repository,
`arduino-zigbee-switch/src/Zigbee_On_Off_Switch.cpp` and
`arduino-zigbee-light/src/Zigbee_On_Off_Light.cpp`.

Time is counted in milliseconds since boot.  A pin is read through a function
`level : pin → time → Bool` (`false` is `LOW`, `true` is `HIGH`); `delay d` and
`vTaskDelay` advance the clock by exactly the requested amount and every other
statement takes no time.  Calls into the Zigbee library, the serial port and the
GPIO driver are recorded, in program order, in a list of `Event`s.
-/

namespace ZigbeeSwitch

/-- Arduino pin level `LOW`. -/
def LOW : Bool := false

/-- Arduino pin level `HIGH`. -/
def HIGH : Bool := true

/-- The BOOT button pin (GPIO9 on the ESP32-H2, as the sketch's comment says). -/
def BOOT_PIN : Nat := 9

/-- The button pin of the switch: `#define GPIO_INPUT_IO_TOGGLE_SWITCH BOOT_PIN`. -/
def GPIO_INPUT_IO_TOGGLE_SWITCH : Nat := BOOT_PIN

/-- FreeRTOS tick period in ms; the Arduino core runs the tick at 1000 Hz. -/
def portTICK_PERIOD_MS : Nat := 1

/-- The functions a button can carry (`typedef enum { ... } SwitchFunction`). -/
inductive SwitchFunction where
  | SWITCH_ON_CONTROL
  | SWITCH_OFF_CONTROL
  | SWITCH_ONOFF_TOGGLE_CONTROL
  | SWITCH_LEVEL_UP_CONTROL
  | SWITCH_LEVEL_DOWN_CONTROL
  | SWITCH_LEVEL_CYCLE_CONTROL
  | SWITCH_COLOR_CONTROL
  deriving DecidableEq, Repr

/-- A button and its function (`typedef struct { pin; func; } SwitchData`). -/
structure SwitchData where
  pin : Nat
  func : SwitchFunction
  deriving DecidableEq, Repr

/-- The states of the button state machine (`typedef enum { ... } SwitchState`). -/
inductive SwitchState where
  | SWITCH_IDLE
  | SWITCH_PRESS_ARMED
  | SWITCH_PRESS_DETECTED
  | SWITCH_PRESSED
  | SWITCH_RELEASE_DETECTED
  deriving DecidableEq, Repr

/-- The button table: one button, the BOOT pin, toggling the light. -/
def buttonFunctionPair : List SwitchData :=
  [⟨GPIO_INPUT_IO_TOGGLE_SWITCH, .SWITCH_ONOFF_TOGGLE_CONTROL⟩]

/-- What the switch sketch does that is visible outside it, in program order. -/
inductive Event where
  /-- `Serial.println("Toggling light")`. -/
  | printlnToggling
  /-- `zbSwitch.lightToggle()`. -/
  | lightToggle
  /-- A call of `onZbButton` with the given button. -/
  | call_onZbButton (button : SwitchData)
  /-- `disableInterrupt(pin)`. -/
  | disableInterrupt (pin : Nat)
  /-- `enableInterrupt(pin)`. -/
  | enableInterrupt (pin : Nat)
  /-- `digitalRead(pin)` and the level it returned. -/
  | digitalRead (pin : Nat) (value : Bool)
  /-- An assignment to the static `buttonState`. -/
  | setButtonState (s : SwitchState)
  /-- `vTaskDelay(ticks)`. -/
  | vTaskDelay (ticks : Nat)
  /-- `zbSwitch.printBoundDevices(Serial)`. -/
  | printBoundDevices
  deriving DecidableEq, Repr

/-- `onZbButton`: sends the toggle command when the button's function is
`SWITCH_ONOFF_TOGGLE_CONTROL`, and does nothing otherwise. -/
def onZbButton (button_func_pair : SwitchData) : List Event :=
  if button_func_pair.func = .SWITCH_ONOFF_TOGGLE_CONTROL then
    [.printlnToggling, .lightToggle]
  else
    []

/-- Modelled from the spec: the FreeRTOS queue behind `gpio_evt_queue`, which
is not part of the repository.  A bounded FIFO channel whose capacity is fixed
when it is created and which holds its elements in arrival order, oldest
first. -/
structure Queue where
  capacity : Nat
  items : List SwitchData
  deriving DecidableEq, Repr

/-- Modelled from the spec: `xQueueCreate(n, size)` gives an empty queue of
capacity `n` (the queue implementation is not part of the repository). -/
def xQueueCreate (n : Nat) : Queue := ⟨n, []⟩

/-- Modelled from the spec: `xQueueSendFromISR`, not part of the repository.
The push never blocks; on a full queue the new element is dropped and the
queue is left as it was.  The flag is `pdTRUE` when the element was stored. -/
def xQueueSendFromISR (q : Queue) (item : SwitchData) : Queue × Bool :=
  if q.items.length < q.capacity then
    ({ q with items := q.items ++ [item] }, true)
  else
    (q, false)

/-- Modelled from the spec: `xQueueReceive(q, &item, portMAX_DELAY)`, not part
of the repository.  It hands out the oldest element; on an empty queue the
caller stays blocked, which is `none` here. -/
def xQueueReceive (q : Queue) : Option (SwitchData × Queue) :=
  match q.items with
  | [] => none
  | item :: rest => some (item, { q with items := rest })

/-- The state of the switch sketch: the clock, the queue between the interrupt
handler and `loop`, the two statics of `loop`, and which pin interrupts are
enabled. -/
structure Device where
  now : Nat
  gpio_evt_queue : Queue
  buttonState : SwitchState
  lastPrint : Nat
  intEnabled : Nat → Bool

/-- `millis()`: the clock as a 32-bit unsigned number. -/
def millis (st : Device) : Nat := st.now % 2 ^ 32

/-- `onGpioInterrupt`: push the button of the interrupt onto the queue, and
ignore whether the push succeeded. -/
def onGpioInterrupt (arg : SwitchData) (st : Device) : Device :=
  { st with gpio_evt_queue := (xQueueSendFromISR st.gpio_evt_queue arg).1 }

/-- The body of the loop of `enableGpioInterrupt` for one table entry. -/
def setInterrupt (enabled : Bool) (pin : Nat) (st : Device) : Device :=
  { st with intEnabled := fun p => if p = pin then enabled else st.intEnabled p }

/-- `enableGpioInterrupt`: enable or disable the interrupt of every button of
the table; returns the new state and the driver calls made. -/
def enableGpioInterrupt (enabled : Bool) (st : Device) : Device × List Event :=
  buttonFunctionPair.foldl
    (fun acc b =>
      (setInterrupt enabled b.pin acc.1,
       acc.2 ++ [if enabled then Event.enableInterrupt b.pin
                 else Event.disableInterrupt b.pin]))
    (st, [])

/-- How a pass of `loop` ended: it returned, it is blocked in `xQueueReceive`
on an empty queue, or it is still inside its `while` loop when the samples
looked at so far are used up. -/
inductive Outcome where
  | returned
  | blocked
  | running
  deriving DecidableEq, Repr

/-- The result of running (part of) a pass. -/
structure Pass where
  outcome : Outcome
  state : Device
  trace : List Event

/-- The `switch (buttonState)` statement of `loop` for one sample `value`:
the new state and what was done. -/
def switchStep (buttonSwitch : SwitchData) (buttonState : SwitchState) (value : Bool) :
    SwitchState × List Event :=
  match buttonState with
  | .SWITCH_IDLE =>
      let s := if value = LOW then SwitchState.SWITCH_PRESS_DETECTED else SwitchState.SWITCH_IDLE
      (s, [.setButtonState s])
  | .SWITCH_PRESS_DETECTED =>
      let s := if value = LOW then SwitchState.SWITCH_PRESS_DETECTED
               else SwitchState.SWITCH_RELEASE_DETECTED
      (s, [.setButtonState s])
  | .SWITCH_RELEASE_DETECTED =>
      (.SWITCH_IDLE,
        [.setButtonState .SWITCH_IDLE, .call_onZbButton buttonSwitch] ++ onZbButton buttonSwitch)
  | s => (s, [])

/-- The `while (eventFlag)` loop of `loop`, run for at most `fuel` samples of
the pin. -/
def whileEventFlag (level : Nat → Nat → Bool) (pin : Nat) (buttonSwitch : SwitchData) :
    Nat → Device → Pass
  | 0, st => ⟨.running, st, []⟩
  | fuel + 1, st =>
      let value := level pin st.now
      let sw := switchStep buttonSwitch st.buttonState value
      let st1 := { st with buttonState := sw.1 }
      if sw.1 = .SWITCH_IDLE then
        let en := enableGpioInterrupt true st1
        ⟨.returned, en.1, [.digitalRead pin value] ++ sw.2 ++ en.2⟩
      else
        let ticks := 10 / portTICK_PERIOD_MS
        let st2 := { st1 with now := st1.now + ticks * portTICK_PERIOD_MS }
        let r := whileEventFlag level pin buttonSwitch fuel st2
        ⟨r.outcome, r.state, [.digitalRead pin value] ++ sw.2 ++ [.vTaskDelay ticks] ++ r.trace⟩

/-- The periodic dump at the end of `loop`: print the bound devices when more
than 10000 ms have passed since the last dump (32-bit unsigned arithmetic). -/
def printCheck (st : Device) : Device × List Event :=
  if (millis st + 2 ^ 32 - st.lastPrint) % 2 ^ 32 > 10000 then
    ({ st with lastPrint := millis st }, [.printBoundDevices])
  else
    (st, [])

/-- One pass of `loop`, looking at no more than `fuel` samples of the pin. -/
def loop (level : Nat → Nat → Bool) (fuel : Nat) (st : Device) : Pass :=
  match xQueueReceive st.gpio_evt_queue with
  | none => ⟨.blocked, st, []⟩
  | some (buttonSwitch, q) =>
      let pin := buttonSwitch.pin
      let dis := enableGpioInterrupt false { st with gpio_evt_queue := q }
      let w := whileEventFlag level pin buttonSwitch fuel dis.1
      match w.outcome with
      | .returned =>
          let pr := printCheck w.state
          ⟨.returned, pr.1, dis.2 ++ w.trace ++ pr.2⟩
      | o => ⟨o, w.state, dis.2 ++ w.trace⟩

/-- The state `setup` leaves behind at time `now`: an empty queue of capacity
10, the state machine idle, and the button interrupt attached. -/
def setup (now : Nat) : Device :=
  { now := now
    gpio_evt_queue := xQueueCreate 10
    buttonState := .SWITCH_IDLE
    lastPrint := 0
    intEnabled := fun p => decide (p = GPIO_INPUT_IO_TOGGLE_SWITCH) }

/-- Passes of `loop` run one after the other, as the Arduino core calls
`loop` again as soon as it returns; the run stops after `passes` passes or at
the first pass that does not return. -/
def runPasses (level : Nat → Nat → Bool) (fuel : Nat) : Nat → Device → List Pass
  | 0, _ => []
  | passes + 1, st =>
      let p := loop level fuel st
      p :: (if p.outcome = .returned then runPasses level fuel passes p.state else [])

/-- The interrupt handler running `k` times in a row, once per falling edge. -/
def edges (arg : SwitchData) : Nat → Device → Device
  | 0, st => st
  | k + 1, st => edges arg k (onGpioInterrupt arg st)

/-- Whether an event is a call of `onZbButton`. -/
def isCall : Event → Bool
  | .call_onZbButton _ => true
  | _ => false

/-- Whether an event enables or disables a pin interrupt. -/
def isInterruptEvent : Event → Bool
  | .enableInterrupt _ => true
  | .disableInterrupt _ => true
  | _ => false

/-- Whether an event assigns `buttonState`. -/
def isStateEvent : Event → Bool
  | .setButtonState _ => true
  | _ => false

/-- The number of calls of `onZbButton` in a trace. -/
def callCount (tr : List Event) : Nat := tr.countP isCall

/-- The number of calls of `zbSwitch.lightToggle()` in a trace. -/
def toggleCount (tr : List Event) : Nat := tr.count .lightToggle

/-- A pin that reads `LOW` before time `r` and `HIGH` from `r` on, on every
pin number: a button pressed until `r`. -/
def releasedAt (r : Nat) : Nat → Nat → Bool := fun _ t => decide (r ≤ t)

/-- The argument the interrupt of the BOOT button is attached with: the first
entry of `buttonFunctionPair`. -/
def bootButton : SwitchData := ⟨GPIO_INPUT_IO_TOGGLE_SWITCH, .SWITCH_ONOFF_TOGGLE_CONTROL⟩

/-- One step of an interleaving of the two users of the queue: the interrupt
handler runs for a button, or the consumer takes an element as `loop` does. -/
inductive QueueOp where
  | isr (arg : SwitchData)
  | receive
  deriving DecidableEq, Repr

/-- The device together with a record of the hand-off: the events whose push
`xQueueSendFromISR` reported as stored, and the events the consumer got. -/
structure Handoff where
  device : Device
  accepted : List SwitchData
  received : List SwitchData

/-- One step of an interleaving.  A `receive` on an empty queue leaves the
consumer waiting and changes nothing. -/
def Handoff.step (h : Handoff) : QueueOp → Handoff
  | .isr arg =>
      { device := onGpioInterrupt arg h.device
        accepted :=
          if (xQueueSendFromISR h.device.gpio_evt_queue arg).2 then h.accepted ++ [arg]
          else h.accepted
        received := h.received }
  | .receive =>
      match xQueueReceive h.device.gpio_evt_queue with
      | none => h
      | some (item, q) =>
          { device := { h.device with gpio_evt_queue := q }
            accepted := h.accepted
            received := h.received ++ [item] }

/-- The events the interrupt handler tried to push in an interleaving, in
arrival order. -/
def pushes : List QueueOp → List SwitchData
  | [] => []
  | .isr arg :: ops => arg :: pushes ops
  | .receive :: ops => pushes ops

/-- An interleaving run from the state `setup` leaves behind. -/
def Handoff.run (now : Nat) (ops : List QueueOp) : Handoff :=
  ops.foldl Handoff.step ⟨setup now, [], []⟩

end ZigbeeSwitch

namespace ZigbeeLight

/-- Arduino pin level `LOW`. -/
def LOW : Bool := false

/-- Arduino pin level `HIGH`. -/
def HIGH : Bool := true

/-- The BOOT button pin (GPIO9 on the ESP32-H2). -/
def BOOT_PIN : Nat := 9

/-- The global `uint8_t button = BOOT_PIN`. -/
def button : Nat := BOOT_PIN

/-- What the light sketch reads from outside: the level of each input pin at
each time, and the radio's most recent RSSI at each time. -/
structure World where
  level : Nat → Nat → Bool
  rssi : Nat → Int

/-- The state of the light sketch: the clock, the on/off state held by
`zbLight`, the levels last written to the output pins, and the global
`g_last_rssi`. -/
structure Device where
  now : Nat
  lightState : Bool
  out : Nat → Bool
  g_last_rssi : Int

/-- What the light sketch does that is visible outside it, in program order. -/
inductive Event where
  /-- `digitalRead(pin)` and the level it returned. -/
  | digitalRead (pin : Nat) (value : Bool)
  /-- `digitalWrite(pin, value)`. -/
  | digitalWrite (pin : Nat) (value : Bool)
  /-- `delay(ms)`. -/
  | delay (ms : Nat)
  /-- `Serial.println("Resetting Zigbee to factory and rebooting in 1s.")`. -/
  | printlnResetting
  /-- `Zigbee.factoryReset()`. -/
  | factoryReset
  /-- `zbLight.setLight(value)`. -/
  | setLight (value : Bool)
  deriving DecidableEq, Repr

/-- `millis()`: the clock as a 32-bit unsigned number. -/
def millis (st : Device) : Nat := st.now % 2 ^ 32

/-- `delay(ms)`: the clock moves on by `ms`. -/
def delay (ms : Nat) (st : Device) : Device := { st with now := st.now + ms }

/-- Conversion of a 32-bit unsigned value to `int`, as in `int startTime = millis()`. -/
def toInt32 (n : Nat) : Int :=
  if n % 2 ^ 32 < 2 ^ 31 then ((n % 2 ^ 32 : Nat) : Int) else ((n % 2 ^ 32 : Nat) : Int) - 2 ^ 32

/-- Conversion of an `int` to 32-bit unsigned, as C does for the right operand
of `millis() - startTime`. -/
def toUInt32 (i : Int) : Nat := (i % 2 ^ 32).toNat

/-- The value of `millis() - startTime` for a reading `m` of `millis()`:
32-bit unsigned subtraction. -/
def elapsedSince (startTime : Int) (m : Nat) : Nat :=
  (m + 2 ^ 32 - toUInt32 startTime) % 2 ^ 32

/-- `my_rx_callback`: store the radio's most recent RSSI in `g_last_rssi`. -/
def my_rx_callback (w : World) (st : Device) : Device :=
  { st with g_last_rssi := w.rssi st.now }

/-- `digitalWrite(pin, value)`: the output pin takes the level `value`. -/
def digitalWrite (pin : Nat) (value : Bool) (st : Device) : Device :=
  { st with out := fun p => if p = pin then value else st.out p }

/-- `setLED`: refresh the RSSI and drive the LED pin `led` (the global
`uint8_t led = RGB_BUILTIN`, a constant of the board) to `value`. -/
def setLED (w : World) (led : Nat) (value : Bool) (st : Device) : Device × List Event :=
  (digitalWrite led value (my_rx_callback w st), [.digitalWrite led value])

/-- `zbLight.getLightState()`. -/
def getLightState (st : Device) : Bool := st.lightState

/-- `zbLight.setLight(value)` of the Zigbee library: it stores the new state
and calls the callback registered in `setup` with `onLightChange`, which is
`setLED`. -/
def setLight (w : World) (led : Nat) (value : Bool) (st : Device) : Device × List Event :=
  let r := setLED w led value { st with lightState := value }
  (r.1, [.setLight value] ++ r.2)

/-- How a pass of `loop` ended: it returned, the device restarted in
`Zigbee.factoryReset()`, or it is still inside its `while` loop when the
polls looked at so far are used up. -/
inductive Outcome where
  | returned
  | rebooted
  | running
  deriving DecidableEq, Repr

/-- The result of running (part of) a pass. -/
structure Pass where
  outcome : Outcome
  state : Device
  trace : List Event

/-- The loop `while (digitalRead(button) == LOW)` of `loop`, run for at most
`fuel` polls; `.returned` means the loop was left because the button read
`HIGH`. -/
def whilePressed (w : World) (startTime : Int) : Nat → Device → Pass
  | 0, st => ⟨.running, st, []⟩
  | fuel + 1, st =>
      let value := w.level button st.now
      if value = LOW then
        let st1 := delay 50 st
        if elapsedSince startTime (millis st1) > 3000 then
          ⟨.rebooted, delay 1000 st1,
            [.digitalRead button value, .delay 50, .printlnResetting, .delay 1000,
              .factoryReset]⟩
        else
          let r := whilePressed w startTime fuel st1
          ⟨r.outcome, r.state, [.digitalRead button value, .delay 50] ++ r.trace⟩
      else
        ⟨.returned, st, [.digitalRead button value]⟩

/-- One pass of `loop` of the light, with at most `fuel` polls of the held
button. -/
def loop (w : World) (led : Nat) (fuel : Nat) (st : Device) : Pass :=
  let value := w.level button st.now
  if value = LOW then
    let st1 := delay 100 st
    let startTime := toInt32 (millis st1)
    let h := whilePressed w startTime fuel st1
    match h.outcome with
    | .returned =>
        let sl := setLight w led (!getLightState h.state) h.state
        ⟨.returned, delay 100 sl.1,
          [.digitalRead button value, .delay 100] ++ h.trace ++ sl.2 ++ [.delay 100]⟩
    | o => ⟨o, h.state, [.digitalRead button value, .delay 100] ++ h.trace⟩
  else
    ⟨.returned, delay 100 st, [.digitalRead button value, .delay 100]⟩

/-- Whether an event is a call of `zbLight.setLight`. -/
def isSetLight : Event → Bool
  | .setLight _ => true
  | _ => false

/-- Whether an event is a read of a pin or a delay. -/
def isPoll : Event → Bool
  | .digitalRead _ _ => true
  | .delay _ => true
  | _ => false

/-- The trace of `n` rounds of the `while` loop with the button held: a read
of `LOW` and a delay of 50 ms each. -/
def polls : Nat → List Event
  | 0 => []
  | n + 1 => .digitalRead button LOW :: .delay 50 :: polls n

/-- A world in which every pin reads `LOW` before time `r` and `HIGH` from `r`
on (a button pressed until `r`), with a constant RSSI. -/
def pressedUntil (r : Nat) : World := ⟨fun _ t => decide (r ≤ t), fun _ => -127⟩

/-- A world in which every pin reads `LOW` from time 0, `HIGH` from 1601 ms
to just before 1649 ms, `LOW` again until just before 3101 ms and `HIGH` from
then on: a button released for 48 ms in the middle of a long hold. -/
def releasedBriefly : World :=
  ⟨fun _ t => decide ((1601 ≤ t ∧ t < 1649) ∨ 3101 ≤ t), fun _ => -127⟩

/-- The light sketch at time `now`, the light and every output pin off. -/
def lightOff (now : Nat) : Device := ⟨now, false, fun _ => false, -127⟩

end ZigbeeLight

/-! ## The switch -/

namespace ZigbeeSwitch

theorem enableGpioInterrupt_eq (enabled : Bool) (st : Device) :
    enableGpioInterrupt enabled st =
      (setInterrupt enabled BOOT_PIN st,
        [if enabled then Event.enableInterrupt BOOT_PIN else Event.disableInterrupt BOOT_PIN]) := by
  simp [enableGpioInterrupt, buttonFunctionPair, GPIO_INPUT_IO_TOGGLE_SWITCH]

theorem callCount_onZbButton (b : SwitchData) : callCount (onZbButton b) = 0 := by
  unfold onZbButton callCount
  split <;> simp [isCall]

/-- Whatever the state machine starts from and whatever the pin reads, the
`while` loop calls `onZbButton` at most once. -/
theorem whileEventFlag_callCount_le (level : Nat → Nat → Bool) (pin : Nat) (b : SwitchData)
    (fuel : Nat) (st : Device) :
    callCount (whileEventFlag level pin b fuel st).trace ≤ 1 := by
  induction fuel generalizing st with
  | zero => simp [whileEventFlag, callCount]
  | succ k ih =>
    obtain ⟨now, q, bs, lp, ie⟩ := st
    have hb := callCount_onZbButton b
    unfold callCount at hb ih
    cases bs <;> cases hv : level pin now <;>
      simp [whileEventFlag, switchStep, hv, LOW, callCount, isCall, enableGpioInterrupt_eq,
        List.countP_cons, List.countP_append, hb, ih]

/-- One sample of the `while` loop, with the table and the tick period
evaluated. -/
theorem whileEventFlag_succ (level : Nat → Nat → Bool) (pin : Nat) (b : SwitchData)
    (fuel : Nat) (st : Device) :
    whileEventFlag level pin b (fuel + 1) st =
      if (switchStep b st.buttonState (level pin st.now)).1 = .SWITCH_IDLE then
        ⟨.returned,
          setInterrupt true BOOT_PIN
            { st with buttonState := (switchStep b st.buttonState (level pin st.now)).1 },
          [.digitalRead pin (level pin st.now)] ++
            (switchStep b st.buttonState (level pin st.now)).2 ++
            [.enableInterrupt BOOT_PIN]⟩
      else
        ⟨(whileEventFlag level pin b fuel
            { st with buttonState := (switchStep b st.buttonState (level pin st.now)).1,
                      now := st.now + 10 }).outcome,
          (whileEventFlag level pin b fuel
            { st with buttonState := (switchStep b st.buttonState (level pin st.now)).1,
                      now := st.now + 10 }).state,
          [.digitalRead pin (level pin st.now)] ++
            (switchStep b st.buttonState (level pin st.now)).2 ++ [.vTaskDelay 10] ++
            (whileEventFlag level pin b fuel
              { st with buttonState := (switchStep b st.buttonState (level pin st.now)).1,
                        now := st.now + 10 }).trace⟩ := by
  simp [whileEventFlag, enableGpioInterrupt_eq, portTICK_PERIOD_MS]

/-- The `while` loop is left once the pin has read `HIGH`: if sample `i` reads
`HIGH`, `i + 2` samples are enough. -/
theorem whileEventFlag_returns (level : Nat → Nat → Bool) (pin : Nat) (b : SwitchData) :
    ∀ (i fuel : Nat) (st : Device),
      st.buttonState ≠ .SWITCH_PRESS_ARMED → st.buttonState ≠ .SWITCH_PRESSED →
      level pin (st.now + 10 * i) = HIGH → i + 2 ≤ fuel →
      (whileEventFlag level pin b fuel st).outcome = .returned := by
  intro i
  induction i with
  | zero =>
    intro fuel st h1 h2 hH hf
    obtain ⟨k, rfl⟩ : ∃ k, fuel = k + 2 := ⟨fuel - 2, by omega⟩
    obtain ⟨now, q, bs, lp, ie⟩ := st
    simp only [Nat.mul_zero, Nat.add_zero, HIGH] at hH
    cases bs <;> simp_all [whileEventFlag_succ, switchStep, LOW]
  | succ i ih =>
    intro fuel st h1 h2 hH hf
    obtain ⟨k, rfl⟩ : ∃ k, fuel = k + 1 := ⟨fuel - 1, by omega⟩
    obtain ⟨now, q, bs, lp, ie⟩ := st
    have hH2 : level pin (now + 10 + 10 * i) = HIGH := by
      have e : now + 10 + 10 * i = now + 10 * (i + 1) := by omega
      rw [e]; exact hH
    cases bs <;> cases hv : level pin now <;>
      simp_all [whileEventFlag_succ, switchStep, LOW]

/-- A `while` loop that was left leaves the state machine idle and the button
interrupt enabled, whatever it started from. -/
theorem whileEventFlag_final (level : Nat → Nat → Bool) (pin : Nat) (b : SwitchData)
    (fuel : Nat) (st : Device)
    (h : (whileEventFlag level pin b fuel st).outcome = .returned) :
    (whileEventFlag level pin b fuel st).state.buttonState = .SWITCH_IDLE ∧
      (whileEventFlag level pin b fuel st).state.intEnabled BOOT_PIN = true ∧
      (whileEventFlag level pin b fuel st).state.gpio_evt_queue = st.gpio_evt_queue ∧
      (whileEventFlag level pin b fuel st).state.lastPrint = st.lastPrint := by
  induction fuel generalizing st with
  | zero => simp [whileEventFlag] at h
  | succ k ih =>
    rw [whileEventFlag_succ] at h ⊢
    split
    · rename_i hs
      simp [setInterrupt, hs]
    · rename_i hs
      simp only [hs, if_false] at h
      exact ih _ h

theorem onZbButton_clean (b : SwitchData) :
    ∀ e ∈ onZbButton b, isInterruptEvent e = false ∧ isStateEvent e = false := by
  intro e he
  unfold onZbButton at he
  split at he <;> simp at he
  rcases he with rfl | rfl <;> simp [isInterruptEvent, isStateEvent]

theorem switchStep_idle (b : SwitchData) (s : SwitchState) (v : Bool)
    (h : (switchStep b s v).1 = .SWITCH_IDLE) :
    ∃ cb, (switchStep b s v).2 = [.setButtonState .SWITCH_IDLE] ++ cb ∧
      ∀ e ∈ cb, isInterruptEvent e = false ∧ isStateEvent e = false := by
  cases s <;> cases v <;> simp [switchStep, LOW] at h ⊢
  all_goals exact ⟨by simp [isInterruptEvent, isStateEvent], onZbButton_clean b⟩

theorem switchStep_busy (b : SwitchData) (s : SwitchState) (v : Bool)
    (h : (switchStep b s v).1 ≠ .SWITCH_IDLE) :
    ∀ e ∈ (switchStep b s v).2,
      isInterruptEvent e = false ∧ e ≠ .setButtonState .SWITCH_IDLE := by
  cases s <;> cases v <;> simp [switchStep, LOW, isInterruptEvent] at h ⊢

/-- The shape of the trace of a `while` loop that was left: samples during
which the state machine is never set to idle and no interrupt is touched, then
the assignment of `SWITCH_IDLE`, the callback if there is one, and the
re-enabling of the interrupt as the last thing. -/
theorem whileEventFlag_shape (level : Nat → Nat → Bool) (pin : Nat) (b : SwitchData)
    (fuel : Nat) (st : Device)
    (h : (whileEventFlag level pin b fuel st).outcome = .returned) :
    ∃ body cb, (whileEventFlag level pin b fuel st).trace =
        body ++ [.setButtonState .SWITCH_IDLE] ++ cb ++ [.enableInterrupt BOOT_PIN] ∧
      (∀ e ∈ body, isInterruptEvent e = false ∧ e ≠ .setButtonState .SWITCH_IDLE) ∧
      (∀ e ∈ cb, isInterruptEvent e = false ∧ isStateEvent e = false) := by
  induction fuel generalizing st with
  | zero => simp [whileEventFlag] at h
  | succ k ih =>
    rw [whileEventFlag_succ] at h ⊢
    split
    · rename_i hs
      obtain ⟨cb, hcb, hclean⟩ := switchStep_idle b _ _ hs
      refine ⟨[.digitalRead pin (level pin st.now)], cb, ?_, ?_, hclean⟩
      · simp [hcb]
      · simp [isInterruptEvent]
    · rename_i hs
      simp only [hs, if_false] at h
      obtain ⟨body, cb, htr, hb, hc⟩ := ih _ h
      refine ⟨[.digitalRead pin (level pin st.now)] ++
          (switchStep b st.buttonState (level pin st.now)).2 ++ [.vTaskDelay 10] ++ body,
        cb, ?_, ?_, hc⟩
      · simp [htr]
      · intro e he
        simp only [List.mem_append, List.mem_singleton] at he
        rcases he with ((rfl | he) | rfl) | he
        · simp [isInterruptEvent]
        · exact switchStep_busy b _ _ hs e he
        · simp [isInterruptEvent]
        · exact hb e he

/-- The state machine is never set to `SWITCH_PRESS_ARMED` or `SWITCH_PRESSED`. -/
theorem whileEventFlag_states (level : Nat → Nat → Bool) (pin : Nat) (b : SwitchData)
    (fuel : Nat) (st : Device) (s : SwitchState)
    (h : Event.setButtonState s ∈ (whileEventFlag level pin b fuel st).trace) :
    s ≠ .SWITCH_PRESS_ARMED ∧ s ≠ .SWITCH_PRESSED := by
  induction fuel generalizing st with
  | zero => simp [whileEventFlag] at h
  | succ k ih =>
    obtain ⟨now, q, bs, lp, ie⟩ := st
    have hz : ∀ e ∈ onZbButton b, e ≠ Event.setButtonState s := by
      intro e he heq
      have := (onZbButton_clean b e he).2
      simp [heq, isStateEvent] at this
    have hz2 : Event.setButtonState s ∉ onZbButton b := fun hm => hz _ hm rfl
    rw [whileEventFlag_succ] at h
    cases bs <;> cases hv : level pin now <;>
      simp [switchStep, hv, LOW, hz2] at h <;>
      first
        | (subst h; simp)
        | exact ih _ h
        | (rcases h with rfl | h
           · simp
           · exact ih _ h)

/-- A state machine that is not in one of the two unused states stays out of
them, also while the `while` loop is still running. -/
theorem whileEventFlag_inv (level : Nat → Nat → Bool) (pin : Nat) (b : SwitchData)
    (fuel : Nat) (st : Device)
    (h1 : st.buttonState ≠ .SWITCH_PRESS_ARMED) (h2 : st.buttonState ≠ .SWITCH_PRESSED) :
    (whileEventFlag level pin b fuel st).state.buttonState ≠ .SWITCH_PRESS_ARMED ∧
      (whileEventFlag level pin b fuel st).state.buttonState ≠ .SWITCH_PRESSED := by
  induction fuel generalizing st with
  | zero => simpa [whileEventFlag] using ⟨h1, h2⟩
  | succ k ih =>
    obtain ⟨now, q, bs, lp, ie⟩ := st
    rw [whileEventFlag_succ]
    cases bs <;> cases hv : level pin now <;>
      simp_all [switchStep, LOW, setInterrupt]

/-- A `while` loop that starts with the button seen pressed, or seen released
after a press, and that is left, has called `onZbButton` exactly once. -/
theorem whileEventFlag_callCount_eq (level : Nat → Nat → Bool) (pin : Nat) (b : SwitchData)
    (fuel : Nat) (st : Device)
    (hs : st.buttonState = .SWITCH_PRESS_DETECTED ∨ st.buttonState = .SWITCH_RELEASE_DETECTED)
    (h : (whileEventFlag level pin b fuel st).outcome = .returned) :
    callCount (whileEventFlag level pin b fuel st).trace = 1 := by
  induction fuel generalizing st with
  | zero => simp [whileEventFlag] at h
  | succ k ih =>
    obtain ⟨now, q, bs, lp, ie⟩ := st
    have hb := callCount_onZbButton b
    unfold callCount at hb ih ⊢
    rw [whileEventFlag_succ] at h ⊢
    cases bs <;> cases hv : level pin now <;> simp at hs <;>
      simp [switchStep, hv, LOW, isCall, List.countP_cons, List.countP_append, hb] at h ⊢ <;>
      exact ih _ (by simp) h

/-- For a button whose function is the toggle, every call of `onZbButton`
sends one toggle command and no toggle command is sent otherwise. -/
theorem whileEventFlag_toggleCount (level : Nat → Nat → Bool) (pin : Nat) (b : SwitchData)
    (hb : b.func = .SWITCH_ONOFF_TOGGLE_CONTROL) (fuel : Nat) (st : Device) :
    toggleCount (whileEventFlag level pin b fuel st).trace =
      callCount (whileEventFlag level pin b fuel st).trace := by
  induction fuel generalizing st with
  | zero => simp [whileEventFlag, toggleCount, callCount]
  | succ k ih =>
    obtain ⟨now, q, bs, lp, ie⟩ := st
    unfold callCount toggleCount at ih ⊢
    rw [whileEventFlag_succ]
    cases bs <;> cases hv : level pin now <;>
      simp [switchStep, hv, LOW, isCall, List.countP_cons, List.countP_append,
        List.count_cons, List.count_append, onZbButton, hb, ih]

/-- The clock at the end of a `while` loop that starts with the button seen
pressed, reads `LOW` for `m` samples and then `HIGH`: one more sample is read
after the `HIGH` one. -/
theorem whileEventFlag_now (level : Nat → Nat → Bool) (pin : Nat) (b : SwitchData) :
    ∀ (m fuel : Nat) (st : Device), st.buttonState = .SWITCH_PRESS_DETECTED →
      (∀ i, i < m → level pin (st.now + 10 * i) = LOW) →
      level pin (st.now + 10 * m) = HIGH → m + 2 ≤ fuel →
      (whileEventFlag level pin b fuel st).state.now = st.now + 10 * (m + 1) := by
  intro m
  induction m with
  | zero =>
    intro fuel st hs _ hH hf
    obtain ⟨k, rfl⟩ : ∃ k, fuel = k + 2 := ⟨fuel - 2, by omega⟩
    obtain ⟨now, q, bs, lp, ie⟩ := st
    simp only [Nat.mul_zero, Nat.add_zero, HIGH] at hH
    simp at hs
    subst hs
    simp [whileEventFlag_succ, switchStep, LOW, hH, setInterrupt]
  | succ m ih =>
    intro fuel st hs hL hH hf
    obtain ⟨k, rfl⟩ : ∃ k, fuel = k + 1 := ⟨fuel - 1, by omega⟩
    obtain ⟨now, q, bs, lp, ie⟩ := st
    simp at hs
    subst hs
    have h0 : level pin now = false := by simpa [LOW] using hL 0 (by omega)
    rw [whileEventFlag_succ]
    simp only [switchStep, h0, LOW, if_true]
    simp only [reduceCtorEq, if_false]
    rw [ih k _ rfl ?_ ?_ (by omega)]
    · simp only; omega
    · intro i hi
      have := hL (i + 1) (by omega)
      have e : now + 10 * (i + 1) = now + 10 + 10 * i := by omega
      simpa [e] using this
    · have e : now + 10 * (m + 1) = now + 10 + 10 * m := by omega
      simpa [e] using hH

/-- A pass of `loop` that finds an event in the queue. -/
theorem loop_of_receive (level : Nat → Nat → Bool) (fuel : Nat) (st : Device) (b : SwitchData)
    (q : Queue) (hq : xQueueReceive st.gpio_evt_queue = some (b, q)) :
    loop level fuel st =
      match (whileEventFlag level b.pin b fuel
          (setInterrupt false BOOT_PIN { st with gpio_evt_queue := q })).outcome with
      | .returned =>
          ⟨.returned,
            (printCheck (whileEventFlag level b.pin b fuel
              (setInterrupt false BOOT_PIN { st with gpio_evt_queue := q })).state).1,
            [.disableInterrupt BOOT_PIN] ++
              (whileEventFlag level b.pin b fuel
                (setInterrupt false BOOT_PIN { st with gpio_evt_queue := q })).trace ++
              (printCheck (whileEventFlag level b.pin b fuel
                (setInterrupt false BOOT_PIN { st with gpio_evt_queue := q })).state).2⟩
      | o =>
          ⟨o,
            (whileEventFlag level b.pin b fuel
              (setInterrupt false BOOT_PIN { st with gpio_evt_queue := q })).state,
            [.disableInterrupt BOOT_PIN] ++
              (whileEventFlag level b.pin b fuel
                (setInterrupt false BOOT_PIN { st with gpio_evt_queue := q })).trace⟩ := by
  simp [loop, hq, enableGpioInterrupt_eq]

/-- A pass of `loop` that finds the queue empty stays blocked. -/
theorem loop_of_empty (level : Nat → Nat → Bool) (fuel : Nat) (st : Device)
    (hq : xQueueReceive st.gpio_evt_queue = none) :
    loop level fuel st = ⟨.blocked, st, []⟩ := by
  simp [loop, hq]

theorem printCheck_trace (st : Device) :
    (printCheck st).2 = [] ∨ (printCheck st).2 = [.printBoundDevices] := by
  unfold printCheck
  split <;> simp

theorem printCheck_state (st : Device) :
    (printCheck st).1.buttonState = st.buttonState ∧
      (printCheck st).1.intEnabled = st.intEnabled ∧
      (printCheck st).1.gpio_evt_queue = st.gpio_evt_queue ∧
      (printCheck st).1.now = st.now := by
  unfold printCheck
  split <;> simp

/-- The calls of `onZbButton` of a pass are those of its `while` loop. -/
theorem loop_callCount (level : Nat → Nat → Bool) (fuel : Nat) (st : Device) (b : SwitchData)
    (q : Queue) (hq : xQueueReceive st.gpio_evt_queue = some (b, q)) :
    callCount (loop level fuel st).trace =
      callCount (whileEventFlag level b.pin b fuel
        (setInterrupt false BOOT_PIN { st with gpio_evt_queue := q })).trace := by
  rw [loop_of_receive level fuel st b q hq]
  rcases printCheck_trace (whileEventFlag level b.pin b fuel
    (setInterrupt false BOOT_PIN { st with gpio_evt_queue := q })).state with hp | hp <;>
  split <;> simp [callCount, List.countP_cons, List.countP_append, isCall, hp]

/-- The outcome of a pass is that of its `while` loop. -/
theorem loop_outcome (level : Nat → Nat → Bool) (fuel : Nat) (st : Device) (b : SwitchData)
    (q : Queue) (hq : xQueueReceive st.gpio_evt_queue = some (b, q)) :
    (loop level fuel st).outcome =
      (whileEventFlag level b.pin b fuel
        (setInterrupt false BOOT_PIN { st with gpio_evt_queue := q })).outcome := by
  rw [loop_of_receive level fuel st b q hq]
  split
  · rename_i h; simp [h]
  · simp

/-- C6: `onZbButton` sends exactly one toggle command for a button whose
function is `SWITCH_ONOFF_TOGGLE_CONTROL`, whatever its pin, and does nothing
at all for each of the six other functions. -/
theorem onZbButton_dispatch (pin : Nat) :
    toggleCount (onZbButton ⟨pin, .SWITCH_ONOFF_TOGGLE_CONTROL⟩) = 1 ∧
      onZbButton ⟨pin, .SWITCH_ONOFF_TOGGLE_CONTROL⟩ = [.printlnToggling, .lightToggle] ∧
      onZbButton ⟨pin, .SWITCH_ON_CONTROL⟩ = [] ∧
      onZbButton ⟨pin, .SWITCH_OFF_CONTROL⟩ = [] ∧
      onZbButton ⟨pin, .SWITCH_LEVEL_UP_CONTROL⟩ = [] ∧
      onZbButton ⟨pin, .SWITCH_LEVEL_DOWN_CONTROL⟩ = [] ∧
      onZbButton ⟨pin, .SWITCH_LEVEL_CYCLE_CONTROL⟩ = [] ∧
      onZbButton ⟨pin, .SWITCH_COLOR_CONTROL⟩ = [] := by
  simp [onZbButton, toggleCount]

/-- C1: a pass of `loop` starts with the state machine idle and takes one
event from the queue.  If the samples of the pin it then reads are `n ≥ 1`
times `LOW` and then `HIGH`, the pass returns and has called `onZbButton`
exactly once, for every `n` (it reads one more sample after the `HIGH` one,
whose value it does not look at).  Whatever the samples, the queue and the
state, and however far the pass has got, it has called `onZbButton` at most
once; and not at all when its first sample is `HIGH`. -/
theorem switch_debounce_one_call (level : Nat → Nat → Bool) (st : Device) (b : SwitchData)
    (q : Queue) (hidle : st.buttonState = .SWITCH_IDLE)
    (hq : xQueueReceive st.gpio_evt_queue = some (b, q)) :
    (∀ n fuel, 1 ≤ n → (∀ i, i < n → level b.pin (st.now + 10 * i) = LOW) →
        level b.pin (st.now + 10 * n) = HIGH → n + 2 ≤ fuel →
        (loop level fuel st).outcome = .returned ∧ callCount (loop level fuel st).trace = 1) ∧
      (∀ (level2 : Nat → Nat → Bool) (st2 : Device) (fuel : Nat),
        callCount (loop level2 fuel st2).trace ≤ 1) ∧
      (level b.pin st.now = HIGH → ∀ fuel, callCount (loop level fuel st).trace = 0) := by
  refine ⟨?_, ?_, ?_⟩
  · intro n fuel hn hL hH hf
    have hret : (whileEventFlag level b.pin b fuel
        (setInterrupt false BOOT_PIN { st with gpio_evt_queue := q })).outcome = .returned :=
      whileEventFlag_returns level b.pin b n fuel _ (by simp [setInterrupt, hidle])
        (by simp [setInterrupt, hidle]) (by simpa [setInterrupt] using hH) hf
    refine ⟨by rw [loop_outcome level fuel st b q hq]; exact hret, ?_⟩
    rw [loop_callCount level fuel st b q hq]
    obtain ⟨k, rfl⟩ : ∃ k, fuel = k + 1 := ⟨fuel - 1, by omega⟩
    have h0 : level b.pin st.now = false := by simpa [LOW] using hL 0 (by omega)
    rw [whileEventFlag_succ] at hret ⊢
    simp only [setInterrupt, hidle, switchStep, h0, LOW, if_true, reduceCtorEq, if_false]
      at hret ⊢
    have := whileEventFlag_callCount_eq level b.pin b k _ (Or.inl rfl) hret
    simpa [callCount, List.countP_cons, List.countP_append, isCall] using this
  · intro level2 st2 fuel
    cases hr : xQueueReceive st2.gpio_evt_queue with
    | none => simp [loop_of_empty level2 fuel st2 hr, callCount]
    | some bq =>
      obtain ⟨b2, q2⟩ := bq
      rw [loop_callCount level2 fuel st2 b2 q2 hr]
      exact whileEventFlag_callCount_le _ _ _ _ _
  · intro hH fuel
    rw [loop_callCount level fuel st b q hq]
    cases fuel with
    | zero => simp [whileEventFlag, callCount]
    | succ k =>
      have h1 : level b.pin st.now = true := by simpa [HIGH] using hH
      rw [whileEventFlag_succ]
      simp [setInterrupt, hidle, switchStep, h1, LOW, callCount, List.countP_cons, isCall]

/-- C1 at a concrete input: the button is held for 20 ms after `setup` and one
edge was queued; the pass reads `LOW`, `LOW`, `HIGH` and calls `onZbButton`
once.  With the button already released at the first sample it calls it not at
all. -/
theorem switch_debounce_one_call_witness :
    ((loop (releasedAt 20) 4 (onGpioInterrupt bootButton (setup 0))).outcome = .returned ∧
      callCount (loop (releasedAt 20) 4 (onGpioInterrupt bootButton (setup 0))).trace = 1) ∧
    callCount (loop (releasedAt 0) 4 (onGpioInterrupt bootButton (setup 0))).trace = 0 :=
  ⟨(switch_debounce_one_call (releasedAt 20) (onGpioInterrupt bootButton (setup 0)) bootButton
      (xQueueCreate 10) rfl rfl).1 2 4 (by decide)
      (by intro i hi; interval_cases i <;> rfl) rfl (by decide),
   (switch_debounce_one_call (releasedAt 0) (onGpioInterrupt bootButton (setup 0)) bootButton
      (xQueueCreate 10) rfl rfl).2.2 rfl 4⟩

/-- C9: in a pass of `loop` that starts idle, takes an event from the queue
and whose pin reads `HIGH` at some sample, the pass returns and its trace is:
the button interrupt is disabled; then samples during which no interrupt is
touched and the state machine is never set to `SWITCH_IDLE`; then
`SWITCH_IDLE` is assigned, the callback (if any) runs, and the interrupt is
enabled, once; after that only the periodic dump may follow.  Every pass that
returns leaves `buttonState = SWITCH_IDLE` with the button interrupt enabled,
and `buttonState` is never `SWITCH_PRESS_ARMED` or `SWITCH_PRESSED`: no
assignment gives it such a value and a pass that starts outside them stays
outside them, however far it has got. -/
theorem switch_interrupt_gating (level : Nat → Nat → Bool) (st : Device) :
    (∀ b q i fuel, st.buttonState = .SWITCH_IDLE →
        xQueueReceive st.gpio_evt_queue = some (b, q) →
        level b.pin (st.now + 10 * i) = HIGH → i + 2 ≤ fuel →
        (loop level fuel st).outcome = .returned ∧
        ∃ body cb tail, (loop level fuel st).trace =
            [.disableInterrupt BOOT_PIN] ++ body ++ [.setButtonState .SWITCH_IDLE] ++ cb ++
              [.enableInterrupt BOOT_PIN] ++ tail ∧
          (∀ e ∈ body, isInterruptEvent e = false ∧ e ≠ .setButtonState .SWITCH_IDLE) ∧
          (∀ e ∈ cb, isInterruptEvent e = false ∧ isStateEvent e = false) ∧
          (tail = [] ∨ tail = [.printBoundDevices])) ∧
      (∀ fuel, (loop level fuel st).outcome = .returned →
        (loop level fuel st).state.buttonState = .SWITCH_IDLE ∧
          (loop level fuel st).state.intEnabled BOOT_PIN = true) ∧
      (∀ fuel s, Event.setButtonState s ∈ (loop level fuel st).trace →
        s ≠ .SWITCH_PRESS_ARMED ∧ s ≠ .SWITCH_PRESSED) ∧
      (st.buttonState ≠ .SWITCH_PRESS_ARMED → st.buttonState ≠ .SWITCH_PRESSED →
        ∀ fuel, (loop level fuel st).state.buttonState ≠ .SWITCH_PRESS_ARMED ∧
          (loop level fuel st).state.buttonState ≠ .SWITCH_PRESSED) := by
  refine ⟨?_, ?_, ?_, ?_⟩
  · intro b q i fuel hidle hq hH hf
    have hret : (whileEventFlag level b.pin b fuel
        (setInterrupt false BOOT_PIN { st with gpio_evt_queue := q })).outcome = .returned :=
      whileEventFlag_returns level b.pin b i fuel _ (by simp [setInterrupt, hidle])
        (by simp [setInterrupt, hidle]) (by simpa [setInterrupt] using hH) hf
    refine ⟨by rw [loop_outcome level fuel st b q hq]; exact hret, ?_⟩
    obtain ⟨body, cb, htr, hb, hc⟩ := whileEventFlag_shape level b.pin b fuel _ hret
    refine ⟨body, cb, (printCheck (whileEventFlag level b.pin b fuel
      (setInterrupt false BOOT_PIN { st with gpio_evt_queue := q })).state).2, ?_, hb, hc,
      printCheck_trace _⟩
    rw [loop_of_receive level fuel st b q hq]
    simp [hret, htr]
  · intro fuel hret
    cases hr : xQueueReceive st.gpio_evt_queue with
    | none => simp [loop_of_empty level fuel st hr] at hret
    | some bq =>
      obtain ⟨b, q⟩ := bq
      have hw := hret
      rw [loop_outcome level fuel st b q hr] at hw
      have hfin := whileEventFlag_final level b.pin b fuel _ hw
      rw [loop_of_receive level fuel st b q hr]
      simp only [hw]
      have hp := printCheck_state (whileEventFlag level b.pin b fuel
        (setInterrupt false BOOT_PIN { st with gpio_evt_queue := q })).state
      exact ⟨by rw [hp.1]; exact hfin.1, by rw [hp.2.1]; exact hfin.2.1⟩
  · intro fuel s hmem
    cases hr : xQueueReceive st.gpio_evt_queue with
    | none => simp [loop_of_empty level fuel st hr] at hmem
    | some bq =>
      obtain ⟨b, q⟩ := bq
      rw [loop_of_receive level fuel st b q hr] at hmem
      have hw : Event.setButtonState s ∈ (whileEventFlag level b.pin b fuel
          (setInterrupt false BOOT_PIN { st with gpio_evt_queue := q })).trace := by
        rcases printCheck_trace (whileEventFlag level b.pin b fuel
          (setInterrupt false BOOT_PIN { st with gpio_evt_queue := q })).state with hp | hp <;>
        split at hmem <;> simpa [hp] using hmem
      exact whileEventFlag_states level b.pin b fuel _ s hw
  · intro h1 h2 fuel
    cases hr : xQueueReceive st.gpio_evt_queue with
    | none => simpa [loop_of_empty level fuel st hr] using ⟨h1, h2⟩
    | some bq =>
      obtain ⟨b, q⟩ := bq
      have hinv := whileEventFlag_inv level b.pin b fuel
        (setInterrupt false BOOT_PIN { st with gpio_evt_queue := q })
        (by simpa [setInterrupt] using h1) (by simpa [setInterrupt] using h2)
      rw [loop_of_receive level fuel st b q hr]
      split
      · have hp := printCheck_state (whileEventFlag level b.pin b fuel
          (setInterrupt false BOOT_PIN { st with gpio_evt_queue := q })).state
        simp only [hp.1]
        exact hinv
      · exact hinv

/-- C9 at a concrete input: the button is held for 20 ms after `setup` and one
edge was queued. -/
theorem switch_interrupt_gating_witness :
    ((loop (releasedAt 20) 4 (onGpioInterrupt bootButton (setup 0))).outcome = .returned ∧
      ∃ body cb tail, (loop (releasedAt 20) 4 (onGpioInterrupt bootButton (setup 0))).trace =
          [.disableInterrupt BOOT_PIN] ++ body ++ [.setButtonState .SWITCH_IDLE] ++ cb ++
            [.enableInterrupt BOOT_PIN] ++ tail ∧
        (∀ e ∈ body, isInterruptEvent e = false ∧ e ≠ .setButtonState .SWITCH_IDLE) ∧
        (∀ e ∈ cb, isInterruptEvent e = false ∧ isStateEvent e = false) ∧
        (tail = [] ∨ tail = [.printBoundDevices])) ∧
    ((loop (releasedAt 20) 4 (onGpioInterrupt bootButton (setup 0))).state.buttonState =
        .SWITCH_IDLE ∧
      (loop (releasedAt 20) 4 (onGpioInterrupt bootButton (setup 0))).state.intEnabled BOOT_PIN =
        true) ∧
    ((loop (releasedAt 20) 4 (onGpioInterrupt bootButton (setup 0))).state.buttonState ≠
        .SWITCH_PRESS_ARMED ∧
      (loop (releasedAt 20) 4 (onGpioInterrupt bootButton (setup 0))).state.buttonState ≠
        .SWITCH_PRESSED) :=
  ⟨(switch_interrupt_gating (releasedAt 20) (onGpioInterrupt bootButton (setup 0))).1
      bootButton (xQueueCreate 10) 2 4 rfl rfl rfl (by decide),
   (switch_interrupt_gating (releasedAt 20) (onGpioInterrupt bootButton (setup 0))).2.1 4 rfl,
   (switch_interrupt_gating (releasedAt 20) (onGpioInterrupt bootButton (setup 0))).2.2.2
      (by decide) (by decide) 4⟩

theorem pushes_append (xs ys : List QueueOp) : pushes (xs ++ ys) = pushes xs ++ pushes ys := by
  induction xs with
  | nil => simp [pushes]
  | cons x xs ih => cases x <;> simp [pushes, ih]

theorem run_append (now : Nat) (ops : List QueueOp) (op : QueueOp) :
    Handoff.run now (ops ++ [op]) = (Handoff.run now ops).step op := by
  simp [Handoff.run, List.foldl_append]

/-- What every interleaving keeps true: the queue has capacity 10 and never
holds more, what was received followed by what is still queued is what was
stored, and what was stored is a subsequence of what was pushed. -/
theorem run_invariant (now : Nat) (ops : List QueueOp) :
    (Handoff.run now ops).device.gpio_evt_queue.capacity = 10 ∧
      (Handoff.run now ops).device.gpio_evt_queue.items.length ≤ 10 ∧
      (Handoff.run now ops).received ++ (Handoff.run now ops).device.gpio_evt_queue.items =
        (Handoff.run now ops).accepted ∧
      ((Handoff.run now ops).accepted).Sublist (pushes ops) := by
  induction ops using List.reverseRecOn with
  | nil => simp [Handoff.run, setup, xQueueCreate, pushes]
  | append_singleton ops op ih =>
    obtain ⟨hcap, hlen, hfifo, hsub⟩ := ih
    rw [run_append, pushes_append]
    cases op with
    | isr arg =>
      by_cases hfull : (Handoff.run now ops).device.gpio_evt_queue.items.length < 10
      · simp only [Handoff.step, onGpioInterrupt, xQueueSendFromISR, hcap, hfull, if_true,
          pushes]
        refine ⟨trivial, by simp; omega, ?_, ?_⟩
        · rw [← hfifo]; simp
        · exact List.Sublist.append hsub (List.Sublist.refl _)
      · simp only [Handoff.step, onGpioInterrupt, xQueueSendFromISR, hcap, hfull, if_false,
          pushes]
        refine ⟨trivial, hlen, hfifo, ?_⟩
        exact List.Sublist.trans hsub (List.sublist_append_left _ _)
    | receive =>
      cases hitems : (Handoff.run now ops).device.gpio_evt_queue.items with
      | nil =>
        rw [hitems] at hlen hfifo
        simp only [Handoff.step, xQueueReceive, hitems, pushes, List.append_nil]
        exact ⟨hcap, hlen, by simpa using hfifo, hsub⟩
      | cons item rest =>
        simp only [Handoff.step, xQueueReceive, hitems, pushes, List.append_nil]
        rw [hitems] at hlen hfifo
        refine ⟨hcap, by simp at hlen ⊢; omega, ?_, hsub⟩
        rw [← hfifo]; simp

/-- C5: from the queue `setup` creates (capacity 10) and for every
interleaving of interrupt-handler pushes and consumer pops: the events the
consumer has received, followed by those still queued, are exactly the events
whose push was stored, in arrival order, and these are a subsequence of the
events pushed; the queue never holds more than 10 events; and a push onto a
queue holding 10 events returns leaving the queue, the stored and the received
events as they were. -/
theorem queue_handoff_fifo (now : Nat) (ops : List QueueOp) :
    (Handoff.run now ops).received ++ (Handoff.run now ops).device.gpio_evt_queue.items =
        (Handoff.run now ops).accepted ∧
      ((Handoff.run now ops).accepted).Sublist (pushes ops) ∧
      (Handoff.run now ops).device.gpio_evt_queue.items.length ≤ 10 ∧
      (∀ arg, (Handoff.run now ops).device.gpio_evt_queue.items.length = 10 →
        (onGpioInterrupt arg (Handoff.run now ops).device).gpio_evt_queue =
            (Handoff.run now ops).device.gpio_evt_queue ∧
          ((Handoff.run now ops).step (.isr arg)).accepted = (Handoff.run now ops).accepted ∧
          ((Handoff.run now ops).step (.isr arg)).received = (Handoff.run now ops).received) := by
  obtain ⟨hcap, hlen, hfifo, hsub⟩ := run_invariant now ops
  refine ⟨hfifo, hsub, hlen, ?_⟩
  intro arg hfull
  simp [Handoff.step, onGpioInterrupt, xQueueSendFromISR, hcap, hfull]

/-- C5 at a concrete input: after ten pushes the queue is full and the
eleventh push is dropped. -/
theorem queue_handoff_fifo_witness :
    (onGpioInterrupt bootButton
        (Handoff.run 0 (List.replicate 10 (.isr bootButton))).device).gpio_evt_queue =
        (Handoff.run 0 (List.replicate 10 (.isr bootButton))).device.gpio_evt_queue ∧
      ((Handoff.run 0 (List.replicate 10 (.isr bootButton))).step (.isr bootButton)).accepted =
        (Handoff.run 0 (List.replicate 10 (.isr bootButton))).accepted ∧
      ((Handoff.run 0 (List.replicate 10 (.isr bootButton))).step (.isr bootButton)).received =
        (Handoff.run 0 (List.replicate 10 (.isr bootButton))).received :=
  (queue_handoff_fifo 0 (List.replicate 10 (.isr bootButton))).2.2.2 bootButton rfl

/-- C10 at the failing input: 20 s after boot with nothing ever printed, the
check `millis() - lastPrint > 10000` would print the bound devices, but with
an empty queue the pass of `loop` stays blocked in `xQueueReceive` and prints
nothing. -/
theorem switch_dump_waits_for_event (level : Nat → Nat → Bool) (fuel : Nat) :
    (printCheck (setup 20000)).2 = [.printBoundDevices] ∧
      (loop level fuel (setup 20000)).outcome = .blocked ∧
      (loop level fuel (setup 20000)).trace = [] := by
  refine ⟨by decide, ?_, ?_⟩ <;> simp [loop, setup, xQueueCreate, xQueueReceive]

/-- The `while` loop of a pass that starts idle with the pin reading `LOW` for
`n ≥ 1` samples: if it is left, `onZbButton` was called once; and if sample
`n` reads `HIGH`, it is left after sample `n + 1`. -/
theorem whileEventFlag_press (level : Nat → Nat → Bool) (fuel n : Nat) (st : Device)
    (b : SwitchData) (q : Queue) (hidle : st.buttonState = .SWITCH_IDLE)
    (hL : ∀ i, i < n → level b.pin (st.now + 10 * i) = LOW)
    (hret : (whileEventFlag level b.pin b fuel
        (setInterrupt false BOOT_PIN { st with gpio_evt_queue := q })).outcome = .returned)
    (hn : 1 ≤ n) (hf : n + 2 ≤ fuel) :
    callCount (whileEventFlag level b.pin b fuel
        (setInterrupt false BOOT_PIN { st with gpio_evt_queue := q })).trace = 1 ∧
      (level b.pin (st.now + 10 * n) = HIGH →
        (whileEventFlag level b.pin b fuel
          (setInterrupt false BOOT_PIN { st with gpio_evt_queue := q })).state.now =
          st.now + 10 * (n + 1)) := by
  obtain ⟨k, rfl⟩ : ∃ k, fuel = k + 1 := ⟨fuel - 1, by omega⟩
  obtain ⟨m, rfl⟩ : ∃ m, n = m + 1 := ⟨n - 1, by omega⟩
  have h0 : level b.pin st.now = false := by simpa [LOW] using hL 0 (by omega)
  rw [whileEventFlag_succ] at hret ⊢
  simp only [setInterrupt, hidle, switchStep, h0, LOW, if_true, reduceCtorEq, if_false]
    at hret ⊢
  refine ⟨?_, ?_⟩
  · have := whileEventFlag_callCount_eq level b.pin b k _ (Or.inl rfl) hret
    simpa [callCount, List.countP_cons, List.countP_append, isCall] using this
  · intro hH
    rw [whileEventFlag_now level b.pin b m k _ rfl ?_ ?_ (by omega)]
    · simp only; omega
    · intro i hi
      have := hL (i + 1) (by omega)
      have e : st.now + 10 * (i + 1) = st.now + 10 + 10 * i := by omega
      simpa [e] using this
    · have e : st.now + 10 * (m + 1) = st.now + 10 + 10 * m := by omega
      simpa [e] using hH

/-- As many edges as the queue has room for are all stored, in order. -/
theorem edges_items (b : SwitchData) :
    ∀ (k : Nat) (st : Device),
      st.gpio_evt_queue.items.length + k ≤ st.gpio_evt_queue.capacity →
      (edges b k st).gpio_evt_queue.items = st.gpio_evt_queue.items ++ List.replicate k b ∧
        (edges b k st).buttonState = st.buttonState ∧ (edges b k st).now = st.now := by
  intro k
  induction k with
  | zero => intro st _; simp [edges]
  | succ k ih =>
    intro st h
    have hlt : st.gpio_evt_queue.items.length < st.gpio_evt_queue.capacity := by omega
    have := ih (onGpioInterrupt b st)
      (by simp [onGpioInterrupt, xQueueSendFromISR, hlt]; omega)
    simp only [edges]
    rw [this.1, this.2.1, this.2.2]
    simp [onGpioInterrupt, xQueueSendFromISR, hlt, List.replicate_succ]

/-- The toggle commands of a pass are those of its `while` loop. -/
theorem loop_toggleCount (level : Nat → Nat → Bool) (fuel : Nat) (st : Device) (b : SwitchData)
    (q : Queue) (hq : xQueueReceive st.gpio_evt_queue = some (b, q)) :
    toggleCount (loop level fuel st).trace =
      toggleCount (whileEventFlag level b.pin b fuel
        (setInterrupt false BOOT_PIN { st with gpio_evt_queue := q })).trace := by
  rw [loop_of_receive level fuel st b q hq]
  rcases printCheck_trace (whileEventFlag level b.pin b fuel
    (setInterrupt false BOOT_PIN { st with gpio_evt_queue := q })).state with hp | hp <;>
  split <;> simp [toggleCount, List.count_cons, List.count_append, hp]

/-- The state a returned pass leaves, in terms of its `while` loop. -/
theorem loop_state (level : Nat → Nat → Bool) (fuel : Nat) (st : Device) (b : SwitchData)
    (q : Queue) (hq : xQueueReceive st.gpio_evt_queue = some (b, q))
    (hret : (whileEventFlag level b.pin b fuel
        (setInterrupt false BOOT_PIN { st with gpio_evt_queue := q })).outcome = .returned) :
    (loop level fuel st).state.buttonState = .SWITCH_IDLE ∧
      (loop level fuel st).state.gpio_evt_queue = q ∧
      (loop level fuel st).state.now =
        (whileEventFlag level b.pin b fuel
          (setInterrupt false BOOT_PIN { st with gpio_evt_queue := q })).state.now := by
  have hfin := whileEventFlag_final level b.pin b fuel _ hret
  have hp := printCheck_state (whileEventFlag level b.pin b fuel
    (setInterrupt false BOOT_PIN { st with gpio_evt_queue := q })).state
  rw [loop_of_receive level fuel st b q hq]
  simp only [hret]
  refine ⟨by rw [hp.1]; exact hfin.1, ?_, hp.2.2.2⟩
  rw [hp.2.2.1, hfin.2.2.1]; simp [setInterrupt]

theorem xQueueReceive_cons (q : Queue) (b : SwitchData) (rest : List SwitchData)
    (h : q.items = b :: rest) : xQueueReceive q = some (b, { q with items := rest }) := by
  simp [xQueueReceive, h]

/-- A pass for a stale edge: the pin already reads `HIGH`, so the pass takes
the event, sends nothing and returns at once. -/
theorem loop_stale (level : Nat → Nat → Bool) (fuel : Nat) (st : Device) (b : SwitchData)
    (rest : List SwitchData) (hidle : st.buttonState = .SWITCH_IDLE)
    (hitems : st.gpio_evt_queue.items = b :: rest) (hH : level b.pin st.now = HIGH)
    (hf : 1 ≤ fuel) :
    (loop level fuel st).outcome = .returned ∧ toggleCount (loop level fuel st).trace = 0 ∧
      (loop level fuel st).state.buttonState = .SWITCH_IDLE ∧
      (loop level fuel st).state.gpio_evt_queue.items = rest ∧
      (loop level fuel st).state.now = st.now := by
  have hq := xQueueReceive_cons st.gpio_evt_queue b rest hitems
  obtain ⟨k, rfl⟩ : ∃ k, fuel = k + 1 := ⟨fuel - 1, by omega⟩
  have h1 : level b.pin st.now = true := by simpa [HIGH] using hH
  have hw : whileEventFlag level b.pin b (k + 1)
      (setInterrupt false BOOT_PIN { st with gpio_evt_queue := { st.gpio_evt_queue with items := rest } }) =
      ⟨.returned, setInterrupt true BOOT_PIN
          { setInterrupt false BOOT_PIN
              { st with gpio_evt_queue := { st.gpio_evt_queue with items := rest } } with
            buttonState := .SWITCH_IDLE },
        [.digitalRead b.pin true, .setButtonState .SWITCH_IDLE, .enableInterrupt BOOT_PIN]⟩ := by
    rw [whileEventFlag_succ]
    simp [setInterrupt, hidle, switchStep, h1, LOW]
  have hret : (whileEventFlag level b.pin b (k + 1)
      (setInterrupt false BOOT_PIN { st with gpio_evt_queue := { st.gpio_evt_queue with items := rest } })).outcome = .returned := by
    rw [hw]
  have hs := loop_state level (k + 1) st b _ hq hret
  refine ⟨by rw [loop_outcome level (k + 1) st b _ hq]; exact hret, ?_, hs.1, ?_, ?_⟩
  · rw [loop_toggleCount level (k + 1) st b _ hq, hw]
    simp [toggleCount]
  · rw [hs.2.1]
  · rw [hs.2.2, hw]; simp [setInterrupt]

/-- The pass for the first edge of a press: the pin reads `LOW` for `n ≥ 1`
samples and then `HIGH`; the pass sends one toggle command and returns after
the release. -/
theorem loop_first (level : Nat → Nat → Bool) (fuel n : Nat) (st : Device) (b : SwitchData)
    (rest : List SwitchData) (hb : b.func = .SWITCH_ONOFF_TOGGLE_CONTROL)
    (hidle : st.buttonState = .SWITCH_IDLE)
    (hitems : st.gpio_evt_queue.items = b :: rest) (hn : 1 ≤ n)
    (hL : ∀ i, i < n → level b.pin (st.now + 10 * i) = LOW)
    (hH : level b.pin (st.now + 10 * n) = HIGH) (hf : n + 2 ≤ fuel) :
    (loop level fuel st).outcome = .returned ∧ toggleCount (loop level fuel st).trace = 1 ∧
      (loop level fuel st).state.buttonState = .SWITCH_IDLE ∧
      (loop level fuel st).state.gpio_evt_queue.items = rest ∧
      (loop level fuel st).state.now = st.now + 10 * (n + 1) := by
  have hq := xQueueReceive_cons st.gpio_evt_queue b rest hitems
  have hret : (whileEventFlag level b.pin b fuel
      (setInterrupt false BOOT_PIN { st with gpio_evt_queue := { st.gpio_evt_queue with items := rest } })).outcome = .returned :=
    whileEventFlag_returns level b.pin b n fuel _ (by simp [setInterrupt, hidle])
      (by simp [setInterrupt, hidle]) (by simpa [setInterrupt] using hH) hf
  have hs := loop_state level fuel st b _ hq hret
  have hc := (whileEventFlag_press level fuel n st b _ hidle hL hret hn hf)
  refine ⟨by rw [loop_outcome level fuel st b _ hq]; exact hret, ?_, hs.1, ?_, ?_⟩
  · rw [loop_toggleCount level fuel st b _ hq, whileEventFlag_toggleCount level b.pin b hb]
    exact hc.1
  · rw [hs.2.1]
  · rw [hs.2.2]; exact hc.2 hH

/-- Passes for `k` stale edges, the pin reading `HIGH` throughout: each pass
returns without a toggle command, and the queue is empty at the end. -/
theorem runPasses_stale (level : Nat → Nat → Bool) (fuel : Nat) (b : SwitchData) (hf : 1 ≤ fuel) :
    ∀ (k : Nat) (st : Device), st.buttonState = .SWITCH_IDLE →
      st.gpio_evt_queue.items = List.replicate k b →
      (∀ t, st.now ≤ t → level b.pin t = HIGH) →
      (runPasses level fuel k st).map (fun p => toggleCount p.trace) = List.replicate k 0 ∧
        (∀ p ∈ runPasses level fuel k st,
          p.outcome = .returned ∧ p.state.gpio_evt_queue.items.length < k) ∧
        (∀ p, (runPasses level fuel k st).getLast? = some p → p.state.gpio_evt_queue.items = []) := by
  intro k
  induction k with
  | zero => intro st _ _ _; simp [runPasses]
  | succ k ih =>
    intro st hidle hitems hH
    obtain ⟨ho, ht, hs, hq, hnow⟩ := loop_stale level fuel st b (List.replicate k b) hidle
      (by rw [hitems, List.replicate_succ]) (hH _ (Nat.le_refl _)) hf
    obtain ⟨i1, i2, i3⟩ := ih (loop level fuel st).state hs hq (by rw [hnow]; exact hH)
    simp only [runPasses, ho, if_true, List.map_cons, ht, List.replicate_succ, i1]
    refine ⟨trivial, ?_, ?_⟩
    · intro p hp
      rcases List.mem_cons.1 hp with rfl | hp
      · exact ⟨ho, by rw [hq]; simp⟩
      · exact ⟨(i2 p hp).1, by have := (i2 p hp).2; omega⟩
    · intro p hp
      cases hrest : runPasses level fuel k (loop level fuel st).state with
      | nil =>
        rw [hrest] at hp
        simp at hp
        subst hp
        cases k with
        | zero => simpa using hq
        | succ k => simp [runPasses] at hrest
      | cons p2 ps =>
        apply i3
        rw [hrest] at hp ⊢
        simpa [List.getLast?_cons_cons] using hp

/-- C4: after `setup`, `k` falling edges of one press (`1 ≤ k ≤ 10`) are
queued by `onGpioInterrupt` for a button of the table; the pin reads `LOW` at
the first `n ≥ 1` samples and `HIGH` from the time of sample `n` on.  Then the
`k` passes of `loop` that drain the queue all return, the first one sends one
toggle command and each later one sends none, so that one toggle command is
sent in total, and the queue is empty at the end. -/
theorem switch_bounce_one_toggle (level : Nat → Nat → Bool) (now n k fuel : Nat) (b : SwitchData)
    (hb : b ∈ buttonFunctionPair) (hk1 : 1 ≤ k) (hk10 : k ≤ 10) (hn : 1 ≤ n)
    (hlow : ∀ i, i < n → level b.pin (now + 10 * i) = LOW)
    (hhigh : ∀ t, now + 10 * n ≤ t → level b.pin t = HIGH) (hfuel : n + 2 ≤ fuel) :
    (runPasses level fuel k (edges b k (setup now))).map (fun p => toggleCount p.trace) =
        1 :: List.replicate (k - 1) 0 ∧
      ((runPasses level fuel k (edges b k (setup now))).map
        (fun p => toggleCount p.trace)).sum = 1 ∧
      (runPasses level fuel k (edges b k (setup now))).length = k ∧
      (∀ p ∈ runPasses level fuel k (edges b k (setup now)), p.outcome = .returned) ∧
      (∀ p, (runPasses level fuel k (edges b k (setup now))).getLast? = some p →
        p.state.gpio_evt_queue.items = []) := by
  obtain ⟨j, rfl⟩ : ∃ j, k = j + 1 := ⟨k - 1, by omega⟩
  have hfunc : b.func = .SWITCH_ONOFF_TOGGLE_CONTROL := by
    simp [buttonFunctionPair] at hb; rw [hb]
  obtain ⟨e1, e2, e3⟩ := edges_items b (j + 1) (setup now)
    (by simp [setup, xQueueCreate]; omega)
  have hitems : (edges b (j + 1) (setup now)).gpio_evt_queue.items = b :: List.replicate j b := by
    rw [e1]; simp [setup, xQueueCreate, List.replicate_succ]
  have hidle : (edges b (j + 1) (setup now)).buttonState = .SWITCH_IDLE := by
    rw [e2]; rfl
  have hnow : (edges b (j + 1) (setup now)).now = now := by rw [e3]; rfl
  obtain ⟨ho, ht, hs, hq, hnow2⟩ := loop_first level fuel n (edges b (j + 1) (setup now)) b
    (List.replicate j b) hfunc hidle hitems hn (by rw [hnow]; exact hlow)
    (by rw [hnow]; exact hhigh _ (Nat.le_refl _)) hfuel
  obtain ⟨i1, i2, i3⟩ := runPasses_stale level fuel b (by omega) j
    (loop level fuel (edges b (j + 1) (setup now))).state hs hq
    (by intro t ht2; apply hhigh; rw [hnow2, hnow] at ht2; omega)
  have hlen : (runPasses level fuel j (loop level fuel (edges b (j + 1) (setup now))).state).length
      = j := by
    have := congrArg List.length i1
    simpa using this
  simp only [runPasses, ho, if_true, List.map_cons, ht, i1, Nat.add_sub_cancel, List.length_cons,
    hlen]
  refine ⟨trivial, by simp, trivial, ?_, ?_⟩
  · intro p hp
    rcases List.mem_cons.1 hp with rfl | hp
    · exact ho
    · exact (i2 p hp).1
  · intro p hp
    cases hrest : runPasses level fuel j (loop level fuel (edges b (j + 1) (setup now))).state with
    | nil =>
      rw [hrest] at hp hlen
      simp at hp hlen
      subst hp
      subst hlen
      simpa using hq
    | cons p2 ps =>
      apply i3
      rw [hrest] at hp ⊢
      simpa [List.getLast?_cons_cons] using hp

/-- C4 at the spec's input: three edges are queued, the button is released
200 ms after the first sample. -/
theorem switch_bounce_one_toggle_witness :
    (runPasses (releasedAt 200) 22 3 (edges bootButton 3 (setup 0))).map
        (fun p => toggleCount p.trace) = [1, 0, 0] ∧
      ((runPasses (releasedAt 200) 22 3 (edges bootButton 3 (setup 0))).map
        (fun p => toggleCount p.trace)).sum = 1 ∧
      (runPasses (releasedAt 200) 22 3 (edges bootButton 3 (setup 0))).length = 3 ∧
      (∀ p ∈ runPasses (releasedAt 200) 22 3 (edges bootButton 3 (setup 0)),
        p.outcome = .returned) ∧
      (∀ p, (runPasses (releasedAt 200) 22 3 (edges bootButton 3 (setup 0))).getLast? = some p →
        p.state.gpio_evt_queue.items = []) :=
  switch_bounce_one_toggle (releasedAt 200) 0 20 3 22 bootButton (by simp [buttonFunctionPair, bootButton])
    (by decide) (by decide) (by decide)
    (by intro i hi; simp [releasedAt, LOW]; omega)
    (by intro t ht; simp [releasedAt, HIGH]; omega) (by decide)

end ZigbeeSwitch

/-! ## The light -/

namespace ZigbeeLight

/-- The value of `millis() - startTime` is the time that has passed since
`startTime` was taken, also across a wrap of the 32-bit clock. -/
theorem elapsedSince_eq (S d : Nat) (hd : d < 2 ^ 32) :
    elapsedSince (toInt32 (S % 2 ^ 32)) ((S + d) % 2 ^ 32) = d := by
  unfold elapsedSince toUInt32 toInt32
  norm_num at hd ⊢
  split <;> omega

/-- The `while` loop when some poll no later than 3000 ms after `startTime`
reads `HIGH`: only reads and delays happen, the device does not restart, and
with enough polls the loop is left. -/
theorem whilePressed_short (w : World) (S m : Nat) (hm : m ≤ 60)
    (hH : w.level button (S + 50 * m) = HIGH) :
    ∀ (fuel k : Nat) (st : Device), st.now = S + 50 * k → k ≤ m →
      (∀ e ∈ (whilePressed w (toInt32 (S % 2 ^ 32)) fuel st).trace, isPoll e = true) ∧
        (whilePressed w (toInt32 (S % 2 ^ 32)) fuel st).state.lightState = st.lightState ∧
        (whilePressed w (toInt32 (S % 2 ^ 32)) fuel st).state.out = st.out ∧
        (whilePressed w (toInt32 (S % 2 ^ 32)) fuel st).outcome ≠ .rebooted ∧
        (m - k + 1 ≤ fuel →
          (whilePressed w (toInt32 (S % 2 ^ 32)) fuel st).outcome = .returned) := by
  intro fuel
  induction fuel with
  | zero => intro k st _ _; simp [whilePressed]
  | succ f ih =>
    intro k st hnow hk
    cases hv : w.level button st.now with
    | true => simp [whilePressed, hv, LOW, isPoll]
    | false =>
      have hkm : k < m := by
        rcases Nat.lt_or_ge k m with h | h
        · exact h
        · have : k = m := by omega
          subst this
          rw [hnow] at hv
          simp [HIGH, hv] at hH
      have hel : elapsedSince (toInt32 (S % 2 ^ 32)) (millis (delay 50 st)) = 50 * (k + 1) := by
        have := elapsedSince_eq S (50 * (k + 1)) (by norm_num; omega)
        simp only [millis, delay, hnow]
        rw [← this]
        congr 2
      obtain ⟨i1, i2, i3, i4, i5⟩ := ih (k + 1) (delay 50 st) (by simp [delay, hnow]; omega) hkm
      have hle : ¬ (50 * (k + 1) > 3000) := by omega
      simp only [whilePressed, hv, LOW, if_true, hel, hle, if_false]
      refine ⟨?_, by simpa [delay] using i2, by simpa [delay] using i3, i4, ?_⟩
      · intro e he
        simp only [List.mem_append, List.mem_cons, List.mem_singleton, List.not_mem_nil,
          or_false] at he
        rcases he with (rfl | rfl) | he
        · rfl
        · rfl
        · exact i1 e he
      · intro hf
        exact i5 (by omega)

/-- The `while` loop when every poll up to 3000 ms after `startTime` reads
`LOW`: after the poll at 3000 ms and its delay the elapsed time is 3050 ms,
the reset is announced and, one second later, done. -/
theorem whilePressed_hold (w : World) (S : Nat)
    (hL : ∀ j, j ≤ 60 → w.level button (S + 50 * j) = LOW) :
    ∀ (d fuel k : Nat) (st : Device), st.now = S + 50 * k → k + d = 60 → d + 1 ≤ fuel →
      (whilePressed w (toInt32 (S % 2 ^ 32)) fuel st).outcome = .rebooted ∧
        (whilePressed w (toInt32 (S % 2 ^ 32)) fuel st).trace =
          polls (d + 1) ++ [.printlnResetting, .delay 1000, .factoryReset] ∧
        (whilePressed w (toInt32 (S % 2 ^ 32)) fuel st).state.now = S + 3050 + 1000 ∧
        (whilePressed w (toInt32 (S % 2 ^ 32)) fuel st).state.lightState = st.lightState := by
  intro d
  induction d with
  | zero =>
    intro fuel k st hnow hk hf
    obtain ⟨f, rfl⟩ : ∃ f, fuel = f + 1 := ⟨fuel - 1, by omega⟩
    have hk60 : k = 60 := by omega
    subst hk60
    have hv : w.level button st.now = false := by
      rw [hnow]; simpa [LOW] using hL 60 (by omega)
    have hel : elapsedSince (toInt32 (S % 2 ^ 32)) (millis (delay 50 st)) = 3050 := by
      have := elapsedSince_eq S 3050 (by norm_num)
      simp only [millis, delay, hnow]
      rw [← this]
    have h3 : (3050 : Nat) > 3000 := by decide
    simp only [whilePressed, hv, LOW, if_true, hel, h3]
    exact ⟨trivial, by simp [polls, LOW], by simp [delay, hnow], rfl⟩
  | succ d ih =>
    intro fuel k st hnow hk hf
    obtain ⟨f, rfl⟩ : ∃ f, fuel = f + 1 := ⟨fuel - 1, by omega⟩
    have hv : w.level button st.now = false := by
      rw [hnow]; simpa [LOW] using hL k (by omega)
    have hel : elapsedSince (toInt32 (S % 2 ^ 32)) (millis (delay 50 st)) = 50 * (k + 1) := by
      have := elapsedSince_eq S (50 * (k + 1)) (by norm_num; omega)
      simp only [millis, delay, hnow]
      rw [← this]
      congr 2
    have hle : ¬ (50 * (k + 1) > 3000) := by omega
    obtain ⟨i1, i2, i3, i4⟩ := ih f (k + 1) (delay 50 st) (by simp [delay, hnow]; omega)
      (by omega) (by omega)
    simp only [whilePressed, hv, LOW, if_true, hel, hle, if_false]
    refine ⟨i1, ?_, i3, by simpa [delay] using i4⟩
    rw [i2]
    simp [polls, LOW]

/-- C8: `setLED(v)` called a second time, at any later moment, leaves every
output pin at the level the first call left it at, and the LED pin is at the
level `v` after one call as after two. -/
theorem setLED_idempotent (w : World) (led : Nat) (v : Bool) (st : Device) (d : Nat) :
    (setLED w led v (delay d (setLED w led v st).1)).1.out = (setLED w led v st).1.out ∧
      (setLED w led v st).1.out led = v ∧
      (setLED w led v (delay d (setLED w led v st).1)).1.out led = v := by
  refine ⟨?_, by simp [setLED, digitalWrite], by simp [setLED, digitalWrite]⟩
  funext p
  by_cases hp : p = led <;> simp [setLED, digitalWrite, my_rx_callback, delay, hp]

/-- C7: a pass of the light's `loop` whose first read of the button is `LOW`
and in which some poll no later than 3000 ms after `startTime` (poll `m ≤ 60`,
50 ms apart, the first one 100 ms after the first read) reads `HIGH`: the pass
returns without a factory reset, calls `setLight` exactly once, with the
negation of the light state, and leaves the light state and the LED pin at
the negation of the light state before the pass.  A pass whose first read is
`HIGH` returns without calling `setLight` and leaves the light state as it
was. -/
theorem light_short_press_toggles (w : World) (led : Nat) (st : Device) :
    (∀ m fuel, w.level button st.now = LOW → m ≤ 60 →
        w.level button (st.now + 100 + 50 * m) = HIGH → m + 1 ≤ fuel →
        (loop w led fuel st).outcome = .returned ∧
          (loop w led fuel st).trace.countP isSetLight = 1 ∧
          Event.setLight (!getLightState st) ∈ (loop w led fuel st).trace ∧
          getLightState (loop w led fuel st).state = !getLightState st ∧
          (loop w led fuel st).state.out led = !getLightState st ∧
          Event.factoryReset ∉ (loop w led fuel st).trace) ∧
      (w.level button st.now = HIGH → ∀ fuel,
        (loop w led fuel st).outcome = .returned ∧
          (loop w led fuel st).trace.countP isSetLight = 0 ∧
          getLightState (loop w led fuel st).state = getLightState st) := by
  refine ⟨?_, ?_⟩
  · intro m fuel h0 hm hH hf
    have hv : w.level button st.now = false := by simpa [LOW] using h0
    obtain ⟨i1, i2, i3, i4, i5⟩ := whilePressed_short w (st.now + 100) m hm hH fuel 0
      (delay 100 st) (by simp [delay]) (by omega)
    have hret := i5 (by omega)
    have hls : (whilePressed w (toInt32 ((st.now + 100) % 2 ^ 32)) fuel
        (delay 100 st)).state.lightState = st.lightState := by
      simpa [delay] using i2
    simp only [loop, hv, LOW, if_true, millis]
    have hst : (delay 100 st).now = st.now + 100 := rfl
    simp only [hst]
    generalize whilePressed w (toInt32 ((st.now + 100) % 2 ^ 32)) fuel (delay 100 st) = W at *
    have hcount : W.trace.countP isSetLight = 0 := by
      rw [List.countP_eq_zero]
      intro e he
      have := i1 e he
      cases e <;> simp_all [isPoll, isSetLight]
    have hnr : Event.factoryReset ∉ W.trace := by
      intro hmem
      have := i1 _ hmem
      simp [isPoll] at this
    simp only [hret]
    refine ⟨trivial, ?_, ?_, ?_, ?_, ?_⟩
    · simp [List.countP_cons, List.countP_append, isSetLight, hcount, setLight, setLED]
    · simp [setLight, setLED, getLightState, hls]
    · simp [setLight, setLED, getLightState, hls, delay, digitalWrite, my_rx_callback]
    · simp [setLight, setLED, getLightState, hls, delay, digitalWrite, my_rx_callback]
    · simp [setLight, setLED, hnr]
  · intro hH fuel
    have hv : w.level button st.now = true := by simpa [HIGH] using hH
    simp [loop, hv, LOW, isSetLight, List.countP_cons, getLightState, delay]

/-- C7 at a concrete input: the button is pressed until 1000 ms and the pass
starts at time 0 with the light off; and a pass that starts at 2000 ms, with
the button released. -/
theorem light_short_press_toggles_witness :
    ((loop (pressedUntil 1000) 0 62 (lightOff 0)).outcome = .returned ∧
      (loop (pressedUntil 1000) 0 62 (lightOff 0)).trace.countP isSetLight = 1 ∧
      Event.setLight (!getLightState (lightOff 0)) ∈
        (loop (pressedUntil 1000) 0 62 (lightOff 0)).trace ∧
      getLightState (loop (pressedUntil 1000) 0 62 (lightOff 0)).state =
        !getLightState (lightOff 0) ∧
      (loop (pressedUntil 1000) 0 62 (lightOff 0)).state.out 0 = !getLightState (lightOff 0) ∧
      Event.factoryReset ∉ (loop (pressedUntil 1000) 0 62 (lightOff 0)).trace) ∧
    ((loop (pressedUntil 1000) 0 62 (lightOff 2000)).outcome = .returned ∧
      (loop (pressedUntil 1000) 0 62 (lightOff 2000)).trace.countP isSetLight = 0 ∧
      getLightState (loop (pressedUntil 1000) 0 62 (lightOff 2000)).state =
        getLightState (lightOff 2000)) :=
  ⟨(light_short_press_toggles (pressedUntil 1000) 0 (lightOff 0)).1 18 62 (by decide)
      (by decide) (by decide) (by decide),
   (light_short_press_toggles (pressedUntil 1000) 0 (lightOff 2000)).2 (by decide) 62⟩

/-- A pass in which some poll no later than 3000 ms after `startTime` reads
`HIGH` does no factory reset, however far it has got. -/
theorem loop_no_reset (w : World) (led : Nat) (st : Device) (m : Nat) (hm : m ≤ 60)
    (hH : w.level button (st.now + 100 + 50 * m) = HIGH) (fuel : Nat) :
    Event.factoryReset ∉ (loop w led fuel st).trace ∧ (loop w led fuel st).outcome ≠ .rebooted := by
  cases hv : w.level button st.now with
  | true => simp [loop, hv, LOW]
  | false =>
    obtain ⟨i1, _, _, i4, _⟩ := whilePressed_short w (st.now + 100) m hm hH fuel 0
      (delay 100 st) (by simp [delay]) (by omega)
    simp only [loop, hv, LOW, if_true, millis]
    have hst : (delay 100 st).now = st.now + 100 := rfl
    simp only [hst]
    generalize whilePressed w (toInt32 ((st.now + 100) % 2 ^ 32)) fuel (delay 100 st) = W at *
    have hnr : Event.factoryReset ∉ W.trace := by
      intro hmem
      have := i1 _ hmem
      simp [isPoll] at this
    cases ho : W.outcome with
    | returned => simp [setLight, setLED, hnr]
    | rebooted => exact absurd ho i4
    | running => simp [hnr]

/-- C3, as amended: the button is pressed at time `p` and released at time `r`, less
than 3000 ms later, and stays released for 100 ms from `r`.  Then a pass of `loop`
that starts at or after `p` and before the end of those 100 ms does not call
`Zigbee.factoryReset()` and the device does not restart, however far the pass
has got. -/
theorem light_no_reset_on_short_press (w : World) (led : Nat) (st : Device) (p r : Nat)
    (hp : p ≤ st.now) (hT : st.now ≤ r + 100) (hr : r < p + 3000)
    (hrel : ∀ t, r ≤ t → t ≤ r + 100 → w.level button t = HIGH) (fuel : Nat) :
    Event.factoryReset ∉ (loop w led fuel st).trace ∧ (loop w led fuel st).outcome ≠ .rebooted := by
  rcases Nat.lt_or_ge st.now r with hlt | hge
  · apply loop_no_reset w led st ((r - (st.now + 100) + 49) / 50) (by omega)
    apply hrel <;> omega
  · have hv : w.level button st.now = true := by simpa [HIGH] using hrel st.now hge hT
    simp [loop, hv, LOW]

/-- C3 at the spec's input: the button is pressed from time 0 to 1000 ms and
the pass starts at time 0. -/
theorem light_no_reset_on_short_press_witness :
    Event.factoryReset ∉ (loop (pressedUntil 1000) 0 62 (lightOff 0)).trace ∧
      (loop (pressedUntil 1000) 0 62 (lightOff 0)).outcome ≠ .rebooted :=
  light_no_reset_on_short_press (pressedUntil 1000) 0 (lightOff 0) 0 1000 (by decide) (by decide)
    (by decide) (by intro t h1 h2; simp [pressedUntil, HIGH]; omega) 62

/-- C2, as amended: a pass of `loop` whose first read of the button is `LOW`
and whose polls, the first one 100 ms after that read and then every 50 ms up
to 3100 ms after it, all read `LOW`, restarts the device in
`Zigbee.factoryReset()`.  The pass does exactly this: the first read and the
100 ms debounce delay, 61 polls of 50 ms, after which the elapsed time since
`startTime` is 3050 ms and the reset is decided (3150 ms after the first
read), the announcement, one second of delay, and the reset. -/
theorem light_factory_reset_after_hold (w : World) (led : Nat) (st : Device) (fuel : Nat)
    (h0 : w.level button st.now = LOW)
    (hheld : ∀ j, j ≤ 60 → w.level button (st.now + 100 + 50 * j) = LOW) (hf : 61 ≤ fuel) :
    (loop w led fuel st).outcome = .rebooted ∧
      (loop w led fuel st).trace =
        [.digitalRead button LOW, .delay 100] ++ polls 61 ++
          [.printlnResetting, .delay 1000, .factoryReset] ∧
      (loop w led fuel st).state.now = st.now + 3150 + 1000 ∧
      getLightState (loop w led fuel st).state = getLightState st := by
  have hv : w.level button st.now = false := by simpa [LOW] using h0
  obtain ⟨i1, i2, i3, i4⟩ := whilePressed_hold w (st.now + 100) hheld 60 fuel 0 (delay 100 st)
    (by simp [delay]) (by omega) (by omega)
  simp only [loop, hv, LOW, if_true, millis]
  have hst : (delay 100 st).now = st.now + 100 := rfl
  simp only [hst]
  generalize whilePressed w (toInt32 ((st.now + 100) % 2 ^ 32)) fuel (delay 100 st) = W at *
  simp only [i1]
  refine ⟨trivial, ?_, ?_, ?_⟩
  · rw [i2]; simp [LOW]
  · rw [i3]
  · simpa [getLightState, delay] using i4

/-- C2, as amended, at a concrete input: the button is held from time 0 until
3101 ms. -/
theorem light_factory_reset_after_hold_witness :
    (loop (pressedUntil 3101) 0 61 (lightOff 0)).outcome = .rebooted ∧
      (loop (pressedUntil 3101) 0 61 (lightOff 0)).trace =
        [.digitalRead button LOW, .delay 100] ++ polls 61 ++
          [.printlnResetting, .delay 1000, .factoryReset] ∧
      (loop (pressedUntil 3101) 0 61 (lightOff 0)).state.now = (lightOff 0).now + 3150 + 1000 ∧
      getLightState (loop (pressedUntil 3101) 0 61 (lightOff 0)).state =
        getLightState (lightOff 0) :=
  light_factory_reset_after_hold (pressedUntil 3101) 0 (lightOff 0) 61 (by decide)
    (by intro j hj; simp [pressedUntil, LOW, lightOff]; omega) (by decide)

/-- C2 fails as stated: the button is held from time 0 until 3051 ms, more
than 3000 ms from the press, which the pass sees at time 0; the pass returns
without calling `Zigbee.factoryReset()`, and toggles the light instead. -/
theorem light_factory_reset_counterexample :
    (∀ t, t ≤ 3050 → (pressedUntil 3051).level button t = LOW) ∧
      (loop (pressedUntil 3051) 0 100 (lightOff 0)).outcome = .returned ∧
      Event.factoryReset ∉ (loop (pressedUntil 3051) 0 100 (lightOff 0)).trace ∧
      Event.setLight true ∈ (loop (pressedUntil 3051) 0 100 (lightOff 0)).trace := by
  refine ⟨?_, ?_, ?_, ?_⟩
  · intro t ht; simp [pressedUntil, LOW]; omega
  · decide
  · decide
  · decide

/-- C3 fails as stated: the button is pressed at time 0 and released at
1601 ms, less than 3000 ms after the press, but pressed again 48 ms later and
held until 3101 ms.  The pass that starts at time 0 polls at 1600 ms and at
1650 ms, reads `LOW` both times and so never sees the release; it calls
`Zigbee.factoryReset()` and the device restarts. -/
theorem light_short_release_counterexample :
    (∀ t, t < 1601 → releasedBriefly.level button t = LOW) ∧
      (∀ t, 1601 ≤ t → t < 1649 → releasedBriefly.level button t = HIGH) ∧
      (loop releasedBriefly 0 100 (lightOff 0)).outcome = .rebooted ∧
      Event.factoryReset ∈ (loop releasedBriefly 0 100 (lightOff 0)).trace ∧
      (loop releasedBriefly 0 100 (lightOff 0)).state.now = 4150 := by
  refine ⟨?_, ?_, ?_, ?_, ?_⟩
  · intro t ht; simp [releasedBriefly, LOW]; omega
  · intro t h1 h2; simp [releasedBriefly, HIGH]; omega
  · decide
  · decide
  · decide

end ZigbeeLight
